import Mathlib

/-!
Verification of `dewpoint` (src/dewpoint.cc), a command-line dew-point
calculator.  The C++ program is shallowly embedded below:

* `ReadFloat` models the C `ReadFloat` helper built on `strtof`
  (longest-prefix parse, then the `*end != '\0'` full-consumption check).
  Parsed values live in `ParsedFloat`: exact rationals stand in for finite
  floats, plus the IEEE specials `nan`, `posInf`, `negInf` that `strtof`
  can produce from the tokens `nan` / `inf`.
* `LocaleUsesFahrenheit` models the territory extraction on locale strings.
* `scanArgs` models the GNU `getopt_long` loop for option string `"cf"` and
  the long options celsius / centigrade / fahrenheit / help, including
  argument permutation (options first, positionals last, `--` terminator),
  cluster handling for short options, and prefix matching for long options.
* `mainModel` models `main`: it mirrors the `optind != argc - 2` count
  check and the (post-permutation) reads of `argv[1]` and `argv[2]`.
* `DewPoint` / `DewPointFahrenheit` embed the Magnus-formula calculator
  over `ℝ` (an exact idealisation of the C `float` arithmetic); the `x`
  local of the source is inlined.  `DewPointNaN` tracks the calculator's
  NaN propagation (`none` plays IEEE NaN).
-/

namespace Dewpoint

/-- Numeric value of a (hex) digit character, as used by the `strtof` model. -/
def hexVal (c : Char) : Nat :=
  if '0' ≤ c ∧ c ≤ '9' then c.toNat - 48
  else if 'a' ≤ c ∧ c ≤ 'f' then c.toNat - 87
  else c.toNat - 55

/-- Decimal digit test (`isdigit` in the C locale). -/
def isDigitChar (c : Char) : Bool :=
  decide ('0' ≤ c ∧ c ≤ '9')

/-- Hexadecimal digit test (`isxdigit` in the C locale). -/
def isHexChar (c : Char) : Bool :=
  isDigitChar c || decide ('a' ≤ c ∧ c ≤ 'f') || decide ('A' ≤ c ∧ c ≤ 'F')

/-- Whitespace skipped by `strtof` (`isspace` in the C locale). -/
def isSpaceChar (c : Char) : Bool :=
  c = ' ' || c = '\t' || c = '\n' || c = '\x0b' || c = '\x0c' || c = '\r'

/-- Characters allowed in the optional `nan(n-char-seq)` suffix. -/
def isNanSeqChar (c : Char) : Bool :=
  isDigitChar c || decide ('a' ≤ c ∧ c ≤ 'z') || decide ('A' ≤ c ∧ c ≤ 'Z') || c = '_'

/-- Test whether `cs` starts with the (lowercase) pattern
`pat`, comparing case-insensitively, as `strtof` does for `inf`/`nan`? -/
def startsWithCI : List Char → List Char → Bool
  | [], _ => true
  | _ :: _, [] => false
  | p :: ps, c :: cs => (c.toLower = p) && startsWithCI ps cs

/-- Value of a digit string in the given base. -/
def natOfDigits (base : Nat) (ds : List Char) : Nat :=
  ds.foldl (fun n c => n * base + hexVal c) 0

/-- The C float value domain produced by `strtof`: finite values
(idealised as exact rationals), NaN and the two infinities. -/
inductive ParsedFloat where
  | finite (q : ℚ)
  | nan
  | posInf
  | negInf
deriving DecidableEq

/-- The decimal exponent part `e[±]digits` of a float literal.  Returns a
scale factor as a numerator/denominator pair of naturals and the number of
characters consumed; a malformed exponent (no digits) is not consumed at
all, exactly as in `strtof`. -/
def parseExp10 : List Char → (Nat × Nat) × Nat
  | e :: r =>
    if e = 'e' || e = 'E' then
      let sgn : Bool × List Char × Nat :=
        match r with
        | '-' :: rr => (true, rr, 1)
        | '+' :: rr => (false, rr, 1)
        | _ => (false, r, 0)
      let ed := sgn.2.1.span isDigitChar
      if ed.1.isEmpty then ((1, 1), 0)
      else
        let n := natOfDigits 10 ed.1
        ((if sgn.1 then (1, 10 ^ n) else (10 ^ n, 1)), 1 + sgn.2.2 + ed.1.length)
    else ((1, 1), 0)
  | [] => ((1, 1), 0)

/-- The binary exponent part `p[±]digits` of a hexadecimal float literal. -/
def parseExp2 : List Char → (Nat × Nat) × Nat
  | e :: r =>
    if e = 'p' || e = 'P' then
      let sgn : Bool × List Char × Nat :=
        match r with
        | '-' :: rr => (true, rr, 1)
        | '+' :: rr => (false, rr, 1)
        | _ => (false, r, 0)
      let ed := sgn.2.1.span isDigitChar
      if ed.1.isEmpty then ((1, 1), 0)
      else
        let n := natOfDigits 10 ed.1
        ((if sgn.1 then (1, 2 ^ n) else (2 ^ n, 1)), 1 + sgn.2.2 + ed.1.length)
    else ((1, 1), 0)
  | [] => ((1, 1), 0)

/-- Longest decimal float literal at the front of `cs` (sign already
consumed by the caller): digits, optional point and fraction digits,
optional exponent.  Returns the value as a numerator/denominator pair and
the characters consumed, or `none` when no conversion is possible. -/
def parseDec (cs : List Char) : Option ((Nat × Nat) × Nat) :=
  let ip := cs.span isDigitChar
  let frac : Bool × List Char × List Char :=
    match ip.2 with
    | '.' :: r => let f := r.span isDigitChar; (true, f.1, f.2)
    | _ => (false, [], ip.2)
  if ip.1.isEmpty && frac.2.1.isEmpty then none
  else
    let mantConsumed := ip.1.length + (if frac.1 then 1 + frac.2.1.length else 0)
    let ex := parseExp10 frac.2.2
    some ((natOfDigits 10 (ip.1 ++ frac.2.1) * ex.1.1, 10 ^ frac.2.1.length * ex.1.2),
      mantConsumed + ex.2)

/-- Longest hexadecimal float literal (`0x...`) at the front of `cs`.
`none` also covers a bare `0x` with no hex digit, which falls back to the
decimal parse of the leading `0`. -/
def parseHex (cs : List Char) : Option ((Nat × Nat) × Nat) :=
  match cs with
  | z :: x :: r =>
    if z = '0' && (x = 'x' || x = 'X') then
      let ip := r.span isHexChar
      let frac : Bool × List Char × List Char :=
        match ip.2 with
        | '.' :: rr => let f := rr.span isHexChar; (true, f.1, f.2)
        | _ => (false, [], ip.2)
      if ip.1.isEmpty && frac.2.1.isEmpty then none
      else
        let mantConsumed := 2 + ip.1.length + (if frac.1 then 1 + frac.2.1.length else 0)
        let ex := parseExp2 frac.2.2
        some ((natOfDigits 16 (ip.1 ++ frac.2.1) * ex.1.1, 16 ^ frac.2.1.length * ex.1.2),
          mantConsumed + ex.2)
    else none
  | _ => none

/-- The body of the `strtof` scan, after leading whitespace: optional sign,
then `inf`/`infinity`, `nan(...)`, a hexadecimal literal, or a decimal
literal.  Returns the value and characters consumed (sign included), or
`none` when no conversion is performed. -/
def strtofCore (cs : List Char) : Option (ParsedFloat × Nat) :=
  let sgn : Bool × Nat × List Char :=
    match cs with
    | '-' :: rr => (true, 1, rr)
    | '+' :: rr => (false, 1, rr)
    | _ => (false, 0, cs)
  let neg := sgn.1
  let slen := sgn.2.1
  let r := sgn.2.2
  if startsWithCI "infinity".data r then
    some ((if neg then .negInf else .posInf), slen + 8)
  else if startsWithCI "inf".data r then
    some ((if neg then .negInf else .posInf), slen + 3)
  else if startsWithCI "nan".data r then
    let extra :=
      match r.drop 3 with
      | '(' :: r2 =>
        let s := r2.span isNanSeqChar
        match s.2 with
        | ')' :: _ => 2 + s.1.length
        | _ => 0
      | _ => 0
    some (.nan, slen + 3 + extra)
  else
    match parseHex r with
    | some (q, n) =>
      some (.finite (mkRat (if neg then -(q.1 : Int) else (q.1 : Int)) q.2), slen + n)
    | none =>
      match parseDec r with
      | some (q, n) =>
        some (.finite (mkRat (if neg then -(q.1 : Int) else (q.1 : Int)) q.2), slen + n)
      | none => none

/-- Model of `strtof` on a character list: skip leading whitespace, then scan the
longest float literal.  `none` means no conversion was performed, in which
case `strtof` leaves the end pointer at the start of the string. -/
def strtofModel (cs : List Char) : Option (ParsedFloat × Nat) :=
  let ws := cs.span isSpaceChar
  match strtofCore ws.2 with
  | some (v, n) => some (v, ws.1.length + n)
  | none => none

/-- Model of the source's `ReadFloat`: run `strtof` and accept only if the
end pointer reached the terminator.  When no conversion is performed the
end pointer equals the start of the token, so the empty token is accepted
with the value `0` returned by `strtof`. -/
def ReadFloat (s : String) : Option ParsedFloat :=
  match strtofModel s.data with
  | some (v, n) => if n = s.data.length then some v else none
  | none => if s.data.isEmpty then some (.finite 0) else none

/-- IEEE comparison `v <= 0.0f` on a parsed value: false for NaN (all
comparisons with NaN are false) and for positive values and `+inf`. -/
def ParsedFloat.leZero : ParsedFloat → Bool
  | .finite q => decide (q ≤ 0)
  | .nan => false
  | .posInf => false
  | .negInf => true

/-- Index of the first occurrence of `c`, as `std::string_view::find`. -/
def firstIdx (c : Char) : List Char → Option Nat
  | [] => none
  | a :: as => if a = c then some 0 else (firstIdx c as).map (· + 1)

/-- The territory codes the source treats as Fahrenheit-using. -/
def fahrenheitTerritories : List (List Char) :=
  ["US", "LR", "FM", "KY", "MH", "PW"].map String.data

/-- Model of the source's `LocaleUsesFahrenheit`: find the first `_` and
the first `.` of the whole string; if both exist and the `.` is strictly
after the `_`, test the substring strictly between them against the
territory list; otherwise false. -/
def LocaleUsesFahrenheit (locale : String) : Bool :=
  match firstIdx '_' locale.data, firstIdx '.' locale.data with
  | some u, some d =>
    if d ≤ u then false
    else decide (((locale.data.drop (u + 1)).take (d - u - 1)) ∈ fahrenheitTerritories)
  | _, _ => false

/-- The claim's reading of the algorithm, for comparison with the code:
the territory lies between the first `_` and the first `.` that FOLLOWS
that `_` (rather than the first `.` of the whole string). -/
def claimLocaleUsesFahrenheit (locale : String) : Bool :=
  match firstIdx '_' locale.data with
  | none => false
  | some u =>
    match firstIdx '.' (locale.data.drop (u + 1)) with
    | none => false
    | some r => decide (((locale.data.drop (u + 1)).take r) ∈ fahrenheitTerritories)

/-- The long options of the source's `long_options` table; celsius and
centigrade share the value `'c'`, help is its own flag. -/
inductive WhichOpt where
  | celsius
  | fahrenheit
  | help
deriving DecidableEq

/-- The `long_options` table. -/
def longTable : List (List Char × WhichOpt) :=
  [("celsius".data, .celsius), ("centigrade".data, .celsius),
   ("fahrenheit".data, .fahrenheit), ("help".data, .help)]

/-- Split a long-option body at the first `=` (GNU `--name=arg` syntax):
returns the name part and whether an `=` was present. -/
def splitEq : List Char → List Char × Bool
  | [] => ([], false)
  | '=' :: _ => ([], true)
  | c :: r => let p := splitEq r; (c :: p.1, p.2)

/-- GNU long-option matching for this table: an exact name wins; otherwise
a prefix is accepted when all candidates resolve to the same option (as
glibc treats entries with equal `flag`/`val`); an `=argument` to these
`no_argument` options is an error.  `none` is getopt's `'?'`. -/
def matchLong (body : List Char) : Option WhichOpt :=
  let p := splitEq body
  let name := p.1
  let hasArg := p.2
  let chosen : Option WhichOpt :=
    match longTable.find? (fun e => e.1 = name) with
    | some e => some e.2
    | none =>
      match longTable.filter (fun e => name.isPrefixOf e.1) with
      | [] => none
      | e :: es => if es.all (fun e2 => e2.2 = e.2) then some e.2 else none
  match chosen with
  | some o => if hasArg then none else some o
  | none => none

/-- A cluster of short options after one `-`: `'c'` forces Celsius, `'f'`
forces Fahrenheit, anything else is getopt's `'?'` (`none`). -/
def scanShort (useF : Bool) : List Char → Option Bool
  | [] => some useF
  | c :: r =>
    if c = 'c' then scanShort false r
    else if c = 'f' then scanShort true r
    else none

/-- Result of the option-processing loop: `--help` seen, an unknown option
seen, or normal completion with the final unit flag, the option tokens (in
scan order, with a terminating `--` kept among them, mirroring the
permuted prefix of `argv`) and the non-option tokens. -/
inductive ScanResult where
  | help
  | unknownOpt
  | done (useF : Bool) (opts nonopts : List String)
deriving DecidableEq

/-- The GNU `getopt_long` loop of `main` with argument permutation: options
are processed in scan order, non-options are collected (ending up after
the options in `argv`), `--` terminates option scanning.  `main` returns
immediately on `--help` (exit 0) and on an unknown option (exit 1). -/
def scanArgs (useF : Bool) (opts nonopts : List String) : List String → ScanResult
  | [] => .done useF opts nonopts
  | tok :: rest =>
    if tok = "--" then .done useF (opts ++ ["--"]) (nonopts ++ rest)
    else
      match tok.data with
      | '-' :: '-' :: body =>
        match matchLong body with
        | some .help => .help
        | some .celsius => scanArgs false (opts ++ [tok]) nonopts rest
        | some .fahrenheit => scanArgs true (opts ++ [tok]) nonopts rest
        | none => .unknownOpt
      | '-' :: c :: cluster =>
        match scanShort useF (c :: cluster) with
        | some u => scanArgs u (opts ++ [tok]) nonopts rest
        | none => .unknownOpt
      | _ => scanArgs useF opts (nonopts ++ [tok]) rest

/-- Observable outcome of one invocation.  `helpShown` records the
measurement locale and default unit reported by the help text;
`invalidTemperature`/`invalidHumidity` record the token quoted in the
diagnostic; `success` records the unit flag and the two values handed to
the calculator (the program then prints the rounded dew point, exit 0). -/
inductive Outcome where
  | helpShown (locale : String) (usesFahrenheit : Bool)
  | unknownOption
  | usageError
  | invalidTemperature (quoted : String)
  | invalidHumidity (quoted : String)
  | success (useFahrenheit : Bool) (temperature humidity : ParsedFloat)
deriving DecidableEq

/-- Process exit status of each outcome. -/
def Outcome.exitCode : Outcome → Nat
  | .helpShown _ _ => 0
  | .success _ _ _ => 0
  | _ => 1

/-- Model of `main` on the measurement locale and the argument vector
(without `argv[0]`).  After the option loop, the source checks
`optind != argc - 2` (i.e. exactly two non-options) and then reads the
temperature from `argv[1]` and the humidity from `argv[2]` — positions in
the PERMUTED argv, namely the first two of options-then-positionals.  Both
error diagnostics quote `argv[1]`, as in the source. -/
def mainModel (locale : String) (args : List String) : Outcome :=
  match scanArgs (LocaleUsesFahrenheit locale) [] [] args with
  | .help => .helpShown locale (LocaleUsesFahrenheit locale)
  | .unknownOpt => .unknownOption
  | .done useF opts nonopts =>
    if nonopts.length = 2 then
      match ReadFloat ((opts ++ nonopts).getD 0 "") with
      | none => .invalidTemperature ((opts ++ nonopts).getD 0 "")
      | some t =>
        match ReadFloat ((opts ++ nonopts).getD 1 "") with
        | none => .invalidHumidity ((opts ++ nonopts).getD 0 "")
        | some h =>
          if h.leZero then .invalidHumidity ((opts ++ nonopts).getD 0 "")
          else .success useF t h
    else .usageError

/-- Magnus-formula constant A of the source. -/
noncomputable def kA : ℝ := 17.625

/-- Magnus-formula constant B of the source. -/
noncomputable def kB : ℝ := 243.04

/-- The source's `DewPoint` over `ℝ` (exact idealisation of `float`), with
the local `x = log(humidity * 0.01f) + kA * celsius / (kB + celsius)`
inlined. -/
noncomputable def DewPoint (celsius humidity : ℝ) : ℝ :=
  kB * (Real.log (humidity * 0.01) + kA * celsius / (kB + celsius)) /
    (kA - (Real.log (humidity * 0.01) + kA * celsius / (kB + celsius)))

/-- The source's `DewPointFahrenheit` over `ℝ`. -/
noncomputable def DewPointFahrenheit (fahrenheit humidity : ℝ) : ℝ :=
  9 / 5 * DewPoint (5 / 9 * (fahrenheit - 32)) humidity + 32

/-- NaN-propagating multiplication (`none` plays IEEE NaN). -/
noncomputable def fmul (a b : Option ℝ) : Option ℝ :=
  a.bind fun x => b.map fun y => x * y

/-- NaN-propagating addition. -/
noncomputable def fadd (a b : Option ℝ) : Option ℝ :=
  a.bind fun x => b.map fun y => x + y

/-- NaN-propagating subtraction. -/
noncomputable def fsub (a b : Option ℝ) : Option ℝ :=
  a.bind fun x => b.map fun y => x - y

/-- NaN-propagating division (valid away from zero denominators, which the
dew-point formula does not hit on the inputs considered here). -/
noncomputable def fdiv (a b : Option ℝ) : Option ℝ :=
  a.bind fun x => b.map fun y => x / y

/-- NaN-propagating logarithm: NaN on NaN and on non-positive arguments. -/
noncomputable def flog (a : Option ℝ) : Option ℝ :=
  a.bind fun x => if 0 < x then some (Real.log x) else none

/-- The source's `DewPoint` with IEEE-style NaN propagation: any NaN
operand (in particular a NaN humidity accepted by the `<= 0.0f` guard)
yields a NaN result. -/
noncomputable def DewPointNaN (celsius humidity : Option ℝ) : Option ℝ :=
  let x := fadd (flog (fmul humidity (some 0.01)))
    (fdiv (fmul (some kA) celsius) (fadd (some kB) celsius))
  fdiv (fmul (some kB) x) (fsub (some kA) x)

/-- Bracketing the Magnus quotient: for `x` in the interval that
`x = log 0.5 + 17.625 * 20 / 263.04` provably occupies, the dew point lies
in `[8.5, 9.5)`, hence rounds to `9`. -/
theorem magnusQuotientBounds (x : ℝ) (h1 : 0.6469 < x) (h2 : x < 0.647) :
    8.5 ≤ 243.04 * x / (17.625 - x) ∧ 243.04 * x / (17.625 - x) < 9.5 := by
  have hden : (0 : ℝ) < 17.625 - x := by linarith
  constructor
  · rw [le_div_iff hden]
    linarith
  · rw [div_lt_iff hden]
    linarith

/-- The Celsius dew point of 20 °C at 50 % relative humidity rounds to 9. -/
theorem dewPoint_20_50_rounds_to_9 : round (DewPoint 20 50) = 9 := by
  have hlog : Real.log ((50 : ℝ) * 0.01) = -Real.log 2 := by
    rw [show ((50 : ℝ) * 0.01) = (2 : ℝ)⁻¹ by norm_num, Real.log_inv]
  have hdiv : (17.625 : ℝ) * 20 / (243.04 + 20) = 5875 / 4384 := by norm_num
  have hgt := Real.log_two_gt_d9
  have hlt := Real.log_two_lt_d9
  have hD : DewPoint 20 50 =
      243.04 * (-Real.log 2 + 17.625 * 20 / (243.04 + 20)) /
        (17.625 - (-Real.log 2 + 17.625 * 20 / (243.04 + 20))) := by
    unfold DewPoint kA kB
    rw [hlog]
  have hb := magnusQuotientBounds (-Real.log 2 + 17.625 * 20 / (243.04 + 20))
    (by rw [hdiv]; linarith) (by rw [hdiv]; linarith)
  rw [hD, round_eq, Int.floor_eq_iff]
  constructor
  · push_cast
    linarith [hb.1]
  · push_cast
    linarith [hb.2]

/-- C1: the claim fails on the code.  With any option present, the first
two cells of the permuted argv are NOT the two positionals: the source
reads `argv[1]`/`argv[2]` instead of `argv[optind]`/`argv[optind + 1]`, so
`dewpoint -c 20 50` parses the token `-c` as the temperature and exits 1
with an invalid-temperature diagnostic.  Without options the two
positionals are read as claimed, and the 20 °C / 50 % dew point does round
to 9. -/
theorem c1_flagged_invocation_rejected :
    mainModel "C" ["-c", "20", "50"] = .invalidTemperature "-c" ∧
    (mainModel "C" ["-c", "20", "50"]).exitCode = 1 ∧
    mainModel "C" ["20", "50"] = .success false (.finite 20) (.finite 50) ∧
    round (DewPoint 20 50) = 9 :=
  ⟨by decide, by decide, by decide, dewPoint_20_50_rounds_to_9⟩

/-- C2: the invalid-humidity diagnostic quotes `argv[1]` — the temperature
token — not the offending humidity token: both for a non-positive humidity
(`dewpoint 20 0`) and for an unparsable one (`dewpoint 20 abc`) the quoted
token is `20`.  The exit status 1 part of the claim holds. -/
theorem c2_humidity_diagnostic_quotes_temperature :
    mainModel "C" ["20", "0"] = .invalidHumidity "20" ∧
    mainModel "C" ["20", "abc"] = .invalidHumidity "20" ∧
    (Outcome.invalidHumidity "20").exitCode = 1 :=
  ⟨by decide, by decide, rfl⟩

/-- C3 counterexample: on `"a.b_US.c"` the first `.` of the string precedes
the first `_`, so the code returns false (Celsius), while the claim's rule
— territory between the first `_` and the first `.` that FOLLOWS it —
extracts `US` and demands true. -/
theorem c3_dot_before_underscore_counterexample :
    LocaleUsesFahrenheit "a.b_US.c" = false ∧
    claimLocaleUsesFahrenheit "a.b_US.c" = true :=
  ⟨by decide, by decide⟩

/-- C4: for positive humidity the calculator returns `B*x/(A-x)` with
`x = ln(H/100) + A*T/(B+T)`, `A = 17.625`, `B = 243.04` (the source's
`humidity * 0.01f` equals `H/100` exactly over `ℝ`). -/
theorem c4_magnus_formula (T H : ℝ) (hH : 0 < H) :
    DewPoint T H =
      243.04 * (Real.log (H / 100) + 17.625 * T / (243.04 + T)) /
        (17.625 - (Real.log (H / 100) + 17.625 * T / (243.04 + T))) := by
  have h : H * 0.01 = H / 100 := by
    rw [show (0.01 : ℝ) = 1 / 100 by norm_num, mul_one_div]
  unfold DewPoint kA kB
  rw [h]

/-- C4 witness at `T = 20`, `H = 50`. -/
theorem c4_magnus_formula_witness :
    DewPoint 20 50 =
      243.04 * (Real.log ((50 : ℝ) / 100) + 17.625 * 20 / (243.04 + 20)) /
        (17.625 - (Real.log ((50 : ℝ) / 100) + 17.625 * 20 / (243.04 + 20))) :=
  c4_magnus_formula 20 50 (by norm_num)

/-- C5: the Fahrenheit path is convert-to-Celsius (`(F-32)*5/9`), apply
the canonical formula, convert back (`C_dew*9/5+32`). -/
theorem c5_fahrenheit_is_composition (F H : ℝ) (hH : 0 < H) :
    DewPointFahrenheit F H = DewPoint ((F - 32) * 5 / 9) H * 9 / 5 + 32 := by
  have h : (5 : ℝ) / 9 * (F - 32) = (F - 32) * 5 / 9 := by ring
  unfold DewPointFahrenheit
  rw [h]
  ring

/-- C5 witness at `F = 68`, `H = 50`. -/
theorem c5_fahrenheit_is_composition_witness :
    DewPointFahrenheit 68 50 = DewPoint ((68 - 32) * 5 / 9) 50 * 9 / 5 + 32 :=
  c5_fahrenheit_is_composition 68 50 (by norm_num)

/-- C6 counterexample: the saturation identity is not universal — at the
pole `T = -243.04` (where `B + T = 0`) the computed value is not `T` (the
C program divides by zero there and produces a NaN; the real-valued
embedding yields 0). -/
theorem c6_saturation_fails_at_pole : DewPoint (-243.04) 100 ≠ -243.04 := by
  have h1 : Real.log ((100 : ℝ) * 0.01) = 0 := by
    rw [show ((100 : ℝ) * 0.01) = 1 by norm_num, Real.log_one]
  have h0 : (243.04 : ℝ) + -243.04 = 0 := by norm_num
  unfold DewPoint kA kB
  rw [h1, h0, div_zero, add_zero, mul_zero, zero_div]
  norm_num

/-- C6 amended: away from the pole `B + T = 0`, at humidity exactly 100
the dew point equals the input temperature, in both the Celsius and the
Fahrenheit path. -/
theorem c6_saturation_identity :
    (∀ T : ℝ, 243.04 + T ≠ 0 → DewPoint T 100 = T) ∧
    (∀ F : ℝ, 243.04 + 5 / 9 * (F - 32) ≠ 0 → DewPointFahrenheit F 100 = F) := by
  have hlog : Real.log ((100 : ℝ) * 0.01) = 0 := by
    rw [show ((100 : ℝ) * 0.01) = 1 by norm_num, Real.log_one]
  have main : ∀ T : ℝ, 243.04 + T ≠ 0 → DewPoint T 100 = T := by
    intro T hT
    unfold DewPoint kA kB
    rw [hlog, zero_add]
    have hden : (17.625 : ℝ) - 17.625 * T / (243.04 + T) =
        17.625 * 243.04 / (243.04 + T) := by
      field_simp
      ring
    rw [hden]
    have hne : (17.625 : ℝ) * 243.04 / (243.04 + T) ≠ 0 :=
      div_ne_zero (by norm_num) hT
    rw [div_eq_iff hne]
    field_simp
    ring
  constructor
  · exact main
  · intro F hF
    unfold DewPointFahrenheit
    rw [main _ hF]
    ring

/-- C6 witness: the saturation identity at `T = 20 °C` and `F = 68 °F`. -/
theorem c6_saturation_identity_witness :
    DewPoint 20 100 = 20 ∧ DewPointFahrenheit 68 100 = 68 :=
  ⟨c6_saturation_identity.1 20 (by norm_num),
   c6_saturation_identity.2 68 (by norm_num)⟩

/-- If `main` reaches the calculator, the humidity it passes does not
satisfy the IEEE comparison `<= 0.0f`: the guard in the source rejects
every parsed humidity for which that comparison is true. -/
theorem mainModel_success_humidity (locale : String) (args : List String)
    (u : Bool) (t h : ParsedFloat)
    (heq : mainModel locale args = .success u t h) : h.leZero = false := by
  unfold mainModel at heq
  split at heq
  · simp at heq
  · simp at heq
  · split at heq
    · split at heq
      · simp at heq
      · split at heq
        · simp at heq
        · split at heq
          · simp at heq
          · rename_i hle
            rw [Outcome.success.injEq] at heq
            obtain ⟨h1, h2, h3⟩ := heq
            subst h3
            simpa using hle
    · simp at heq

/-- C7: a parsed humidity with `humidity <= 0.0f` never reaches the
calculator, and the only exit-status-0 outcomes are `--help` and a
successful computation whose humidity fails that comparison; every other
path — including every invocation whose humidity token parses to a
non-positive value — exits with status 1. -/
theorem c7_nonpositive_humidity_rejected (locale : String) (args : List String) :
    (∀ u t h, mainModel locale args = .success u t h → h.leZero = false) ∧
    ((mainModel locale args).exitCode = 0 →
      (∃ l uF, mainModel locale args = .helpShown l uF) ∨
      ∃ u t h, mainModel locale args = .success u t h ∧ h.leZero = false) := by
  constructor
  · intro u t h heq
    exact mainModel_success_humidity locale args u t h heq
  · intro h0
    cases hout : mainModel locale args with
    | helpShown l uF => exact Or.inl ⟨l, uF, rfl⟩
    | unknownOption => rw [hout] at h0; simp [Outcome.exitCode] at h0
    | usageError => rw [hout] at h0; simp [Outcome.exitCode] at h0
    | invalidTemperature q => rw [hout] at h0; simp [Outcome.exitCode] at h0
    | invalidHumidity q => rw [hout] at h0; simp [Outcome.exitCode] at h0
    | success u t h =>
      exact Or.inr ⟨u, t, h, rfl, mainModel_success_humidity locale args u t h hout⟩

/-- C7 witness: instantiated at the flag-less invocation `dewpoint 20 50`,
whose exit status is 0. -/
theorem c7_nonpositive_humidity_rejected_witness :
    (∃ l uF, mainModel "C" ["20", "50"] = .helpShown l uF) ∨
    ∃ u t h, mainModel "C" ["20", "50"] = .success u t h ∧ h.leZero = false :=
  (c7_nonpositive_humidity_rejected "C" ["20", "50"]).2 (by decide)

/-- C8 counterexample: the empty token is NOT rejected.  `strtof` performs
no conversion on it and leaves the end pointer at the start of the string,
which for the empty token is already the terminator, so `ReadFloat`
accepts it with value 0 even though it is not a valid float literal. -/
theorem c8_empty_token_accepted :
    ReadFloat "" = some (.finite 0) ∧ strtofModel "".data = none :=
  ⟨by decide, by decide⟩

/-- C8 amended: parsing succeeds iff the token is a fully-consumed valid
float literal OR the token is empty (accepted as 0 by the no-conversion
corner case); a token with trailing garbage (`12x`) and a token with no
literal at all (`abc`) are invalid. -/
theorem c8_full_consume_rule :
    (∀ s : String, (ReadFloat s).isSome = true ↔
      (∃ v n, strtofModel s.data = some (v, n) ∧ n = s.data.length) ∨ s.data = []) ∧
    ReadFloat "abc" = none ∧ ReadFloat "12x" = none ∧
    ReadFloat "" = some (.finite 0) := by
  refine ⟨?_, by decide, by decide, by decide⟩
  intro s
  unfold ReadFloat
  cases hm : strtofModel s.data with
  | none =>
    cases hd : s.data with
    | nil => simp
    | cons c cs => simp
  | some p =>
    obtain ⟨v, n⟩ := p
    change (if n = s.data.length then some v else none).isSome = true ↔ _
    constructor
    · intro hs
      by_cases hn : n = s.data.length
      · exact Or.inl ⟨v, n, rfl, hn⟩
      · rw [if_neg hn] at hs
        simp at hs
    · intro hs
      rcases hs with ⟨v2, n2, heq, hn⟩ | hnil
      · rw [Option.some.injEq, Prod.mk.injEq] at heq
        rw [if_pos (heq.2.trans hn)]
        rfl
      · rw [hnil] at hm
        rw [show strtofModel ([] : List Char) = none from rfl] at hm
        exact Option.noConfusion hm

/-- C10: a `nan` humidity token is accepted by `strtof`, the IEEE check
`*humidity <= 0.0f` is false on NaN so the guard does not fire, the
calculator runs, and NaN propagates through every operation of the
formula to the result; no error path intervenes (the outcome is
`success`). -/
theorem c10_nan_humidity_accepted :
    mainModel "C" ["20", "nan"] = .success false (.finite 20) .nan ∧
    ParsedFloat.leZero .nan = false ∧
    (∀ c : Option ℝ, DewPointNaN c none = none) := by
  refine ⟨by decide, rfl, ?_⟩
  intro c
  simp [DewPointNaN, fadd, fmul, fdiv, fsub, flog]

/-- The function `firstIdx` finds the first occurrence: on `pre ++ c :: post` with
`c ∉ pre` it returns `pre.length`. -/
theorem firstIdx_append_cons (c : Char) (pre post : List Char) (h : c ∉ pre) :
    firstIdx c (pre ++ c :: post) = some pre.length := by
  induction pre with
  | nil => simp [firstIdx]
  | cons a as ih =>
    have ha : ¬(a = c) := fun hac => h (by rw [hac]; exact List.mem_cons_self c as)
    simp only [List.cons_append, firstIdx]
    rw [if_neg ha]
    simp only [List.append_eq]
    rw [ih (fun hm => h (List.mem_cons_of_mem a hm))]
    rfl

/-- Inversion for `firstIdx`: a found index decomposes the list as
`pre ++ c :: post` with `c` absent from `pre`. -/
theorem firstIdx_some (c : Char) (l : List Char) (n : Nat)
    (h : firstIdx c l = some n) :
    ∃ pre post, l = pre ++ c :: post ∧ pre.length = n ∧ c ∉ pre := by
  induction l generalizing n with
  | nil => exact absurd h (by simp [firstIdx])
  | cons a as ih =>
    by_cases hac : a = c
    · refine ⟨[], as, by simp [hac], ?_, by simp⟩
      simp only [firstIdx, if_pos hac, Option.some.injEq] at h
      simpa using h
    · simp only [firstIdx, if_neg hac] at h
      cases hfi : firstIdx c as with
      | none => rw [hfi] at h; simp at h
      | some m =>
        rw [hfi] at h
        simp only [Option.map_some'] at h
        injection h with hmn
        obtain ⟨pre, post, hl, hlen, hmem⟩ := ih m hfi
        refine ⟨a :: pre, post, by simp [hl], by simp [hlen, ← hmn], ?_⟩
        intro hm
        rcases List.mem_cons.mp hm with h1 | h2
        · exact hac h1.symm
        · exact hmem h2

/-- C3 amended: the code extracts the territory between the first `_` and
the first `.` OF THE WHOLE STRING (requiring that `.` to fall strictly
after the `_`), not the first `.` following the `_`: it returns true
exactly when the locale splits as `pre ++ _ :: mid ++ . :: post` with no
`_` in `pre`, no `.` in `pre` or `mid`, and `mid` one of
US/LR/FM/KY/MH/PW. -/
theorem c3_locale_territory_rule (locale : String) :
    LocaleUsesFahrenheit locale = true ↔
      ∃ pre mid post : List Char,
        locale.data = pre ++ '_' :: (mid ++ '.' :: post) ∧
        '_' ∉ pre ∧ '.' ∉ pre ∧ '.' ∉ mid ∧ mid ∈ fahrenheitTerritories := by
  constructor
  · intro h
    unfold LocaleUsesFahrenheit at h
    split at h
    · rename_i u d heq1 heq2
      split at h
      · exact absurd h (by simp)
      · rename_i hnle
        have hmem := of_decide_eq_true h
        have hud : u < d := Nat.lt_of_not_le hnle
        obtain ⟨p1, s1, hl1, hlen1, hm1⟩ := firstIdx_some '_' locale.data u heq1
        obtain ⟨p2, s2, hl2, hlen2, hm2⟩ := firstIdx_some '.' locale.data d heq2
        have hp2take : locale.data.take d = p2 := by
          rw [hl2, ← hlen2, List.take_left]
        have hp1take : locale.data.take (u + 1) = p1 ++ ['_'] := by
          rw [hl1, show p1 ++ '_' :: s1 = (p1 ++ ['_']) ++ s1 by simp,
            show u + 1 = (p1 ++ ['_']).length by simp [hlen1], List.take_left]
        have hpre : p2 = (p1 ++ ['_']) ++ p2.drop (u + 1) := by
          have h1 : p2.take (u + 1) = p1 ++ ['_'] := by
            rw [← hp2take, List.take_take, Nat.min_eq_left (by omega), hp1take]
          calc p2 = p2.take (u + 1) ++ p2.drop (u + 1) :=
                (List.take_append_drop _ _).symm
            _ = (p1 ++ ['_']) ++ p2.drop (u + 1) := by rw [h1]
        have hlenmid : (p2.drop (u + 1)).length = d - u - 1 := by
          rw [List.length_drop, hlen2]
          omega
        have hdropl : locale.data.drop (u + 1) = p2.drop (u + 1) ++ '.' :: s2 := by
          rw [hl2]
          conv_lhs => rw [hpre]
          rw [show ((p1 ++ ['_']) ++ p2.drop (u + 1)) ++ '.' :: s2 =
              (p1 ++ ['_']) ++ (p2.drop (u + 1) ++ '.' :: s2) by simp,
            show u + 1 = (p1 ++ ['_']).length by simp [hlen1], List.drop_left]
        refine ⟨p1, p2.drop (u + 1), s2, ?_, hm1, ?_, ?_, ?_⟩
        · rw [hl2]
          conv_lhs => rw [hpre]
          simp
        · intro hin
          apply hm2
          rw [hpre]
          exact List.mem_append_left _ (List.mem_append_left _ hin)
        · intro hin
          apply hm2
          rw [hpre]
          exact List.mem_append_right _ hin
        · rw [hdropl, ← hlenmid, List.take_left] at hmem
          exact hmem
    · exact absurd h (by simp)
  · rintro ⟨pre, mid, post, hl, hpu, hpd, hmd, hmem⟩
    have hu : firstIdx '_' locale.data = some pre.length := by
      rw [hl]
      exact firstIdx_append_cons '_' pre (mid ++ '.' :: post) hpu
    have hdots : '.' ∉ pre ++ '_' :: mid := by
      intro hin
      rcases List.mem_append.mp hin with h1 | h2
      · exact hpd h1
      · rcases List.mem_cons.mp h2 with h3 | h4
        · exact absurd h3 (by decide)
        · exact hmd h4
    have hd : firstIdx '.' locale.data = some (pre.length + 1 + mid.length) := by
      rw [hl, show pre ++ '_' :: (mid ++ '.' :: post) =
          (pre ++ '_' :: mid) ++ '.' :: post by simp,
        firstIdx_append_cons '.' (pre ++ '_' :: mid) post hdots]
      congr 1
      simp only [List.length_append, List.length_cons]
      omega
    unfold LocaleUsesFahrenheit
    rw [hu, hd]
    show (if pre.length + 1 + mid.length ≤ pre.length then false
        else decide (((locale.data.drop (pre.length + 1)).take
          (pre.length + 1 + mid.length - pre.length - 1)) ∈ fahrenheitTerritories)) = true
    rw [if_neg (by omega), show pre.length + 1 + mid.length - pre.length - 1 =
        mid.length by omega]
    have hdrop : locale.data.drop (pre.length + 1) = mid ++ '.' :: post := by
      rw [hl, show pre ++ '_' :: (mid ++ '.' :: post) =
          (pre ++ ['_']) ++ (mid ++ '.' :: post) by simp,
        show pre.length + 1 = (pre ++ ['_']).length by simp, List.drop_left]
    rw [hdrop, List.take_left mid ('.' :: post)]
    exact decide_eq_true hmem

/-- Stepping: `--help` at the head of the remaining arguments short-circuits
the option loop. -/
theorem scanArgs_help (u : Bool) (o n post : List String) :
    scanArgs u o n ("--help" :: post) = .help := rfl

/-- Stepping: each recognized unit flag is consumed, possibly updating the
unit, and scanning continues. -/
theorem scanArgs_recognized (u : Bool) (o n rest : List String) (x : String)
    (hx : x ∈ (["-c", "-f", "--celsius", "--centigrade", "--fahrenheit"] : List String)) :
    ∃ u2, scanArgs u o n (x :: rest) = scanArgs u2 (o ++ [x]) n rest := by
  simp only [List.mem_cons, List.not_mem_nil, or_false] at hx
  rcases hx with rfl | rfl | rfl | rfl | rfl
  · exact ⟨false, rfl⟩
  · exact ⟨true, rfl⟩
  · exact ⟨false, rfl⟩
  · exact ⟨false, rfl⟩
  · exact ⟨true, rfl⟩

/-- Stepping: a non-option token (no leading `-`, or the bare `-`) is
collected and scanning continues. -/
theorem scanArgs_nonopt (u : Bool) (o n rest : List String) (x : String)
    (hx : x.data.head? ≠ some '-' ∨ x = "-") :
    scanArgs u o n (x :: rest) = scanArgs u o (n ++ [x]) rest := by
  rcases hx with hx | rfl
  · have hne : x ≠ "--" := by
      intro habs
      rw [habs] at hx
      exact hx rfl
    simp only [scanArgs]
    rw [if_neg hne]
    rcases hd : x.data with _ | ⟨c, cs⟩
    · rfl
    · have hc : ¬(c = '-') := by
        intro habs
        rw [hd, habs] at hx
        exact hx rfl
      split
      · rename_i heqq
        injection heqq with h1 h2
        exact absurd h1 hc
      · rename_i heqq
        injection heqq with h1 h2
        exact absurd h1 hc
      · rfl
  · rfl

/-- Reaching `--help` through any prefix of recognized flags and
non-option tokens yields the help outcome. -/
theorem scanArgs_to_help (post pre : List String) :
    ∀ (u : Bool) (o n : List String),
      (∀ x ∈ pre,
        x ∈ (["-c", "-f", "--celsius", "--centigrade", "--fahrenheit"] : List String) ∨
        x.data.head? ≠ some '-' ∨ x = "-") →
      scanArgs u o n (pre ++ "--help" :: post) = .help := by
  induction pre with
  | nil =>
    intro u o n _
    exact scanArgs_help u o n post
  | cons x xs ih =>
    intro u o n hpre
    have hx := hpre x (List.mem_cons_self x xs)
    have hxs := fun y hy => hpre y (List.mem_cons_of_mem x hy)
    rw [List.cons_append]
    rcases hx with hmem | hnon
    · obtain ⟨u2, hstep⟩ := scanArgs_recognized u o n (xs ++ "--help" :: post) x hmem
      rw [hstep]
      exact ih u2 (o ++ [x]) n hxs
    · rw [scanArgs_nonopt u o n (xs ++ "--help" :: post) x hnon]
      exact ih u o (n ++ [x]) hxs

/-- C9 counterexample: an unrecognized option scanned before `--help`
makes getopt return `'?'` first, so the program prints the try-help hint
and exits 1 — the help text is never shown, although `--help` appears
among the arguments. -/
theorem c9_unknown_option_preempts_help :
    mainModel "C" ["-x", "--help"] = .unknownOption ∧
    (Outcome.unknownOption).exitCode = 1 :=
  ⟨by decide, rfl⟩

/-- C9 amended: whenever `--help` appears among the arguments and every
argument before it is a recognized unit flag or a non-option token, the
program prints the help text with the detected measurement locale and its
default unit and exits 0, regardless of what follows `--help` — no
calculation is performed. -/
theorem c9_help_short_circuits (locale : String) (pre post : List String)
    (hpre : ∀ x ∈ pre,
      x ∈ (["-c", "-f", "--celsius", "--centigrade", "--fahrenheit"] : List String) ∨
      x.data.head? ≠ some '-' ∨ x = "-") :
    mainModel locale (pre ++ "--help" :: post) =
      .helpShown locale (LocaleUsesFahrenheit locale) := by
  unfold mainModel
  rw [scanArgs_to_help post pre (LocaleUsesFahrenheit locale) [] [] hpre]

/-- C9 witness: `dewpoint -c 20 --help 50` shows the help and exits 0. -/
theorem c9_help_short_circuits_witness :
    mainModel "C" (["-c", "20"] ++ "--help" :: ["50"]) =
      .helpShown "C" (LocaleUsesFahrenheit "C") :=
  c9_help_short_circuits "C" ["-c", "20"] ["50"] (by decide)

end Dewpoint
